import Mathlib

/-!
Verification development for `progrelig14/results.js`, the analysis script of
the "Programmers and Religion" survey.  The JavaScript source is shallowly
embedded: JS strings are modelled as lists of code units (`JStr`), JS numbers
as `JSNum` (a rational or `NaN`), records (JS objects produced by the CSV
loader) as total maps from the (Lean-level) column-name strings to `JSValue`s,
and the DOM side effects of the two render functions as `Artifact` values
returned by the embedded load callback.
-/

/-- Code-unit string model of a JavaScript string (BMP code points coincide
with UTF-16 code units, which covers all data handled by this program). -/
abbrev JStr := List Nat

/-- Conversion of a Lean string literal to its JS code-unit model. -/
def strU (s : String) : JStr := s.data.map Char.toNat

/-- Whitespace test used both by `String.prototype.trim` and by string
`ToNumber` coercion (space, tab, LF, VT, FF, CR, NBSP, LS, PS, BOM). -/
def jsWs (n : Nat) : Bool :=
  n == 9 || n == 10 || n == 11 || n == 12 || n == 13 || n == 32 ||
  n == 160 || n == 8232 || n == 8233 || n == 65279

/-- Model of `String.prototype.toLowerCase` on one code unit: the survey data
is ASCII, so only the ASCII range is case-mapped. -/
def lowerChar (n : Nat) : Nat :=
  if 65 ≤ n ∧ n ≤ 90 then n + 32 else n

/-- Model of trimming leading and trailing JS whitespace. -/
def jsTrim (l : JStr) : JStr :=
  (((l.dropWhile jsWs).reverse).dropWhile jsWs).reverse

/-- Decimal digit test on a code unit. -/
def isDigitU (n : Nat) : Bool := 48 ≤ n && n ≤ 57

/-- Value of a list of decimal digit code units. -/
def digitsToNat (l : JStr) : Nat :=
  l.foldl (fun a d => a * 10 + (d - 48)) 0

/-- Model of a JavaScript number as far as this program observes one: either
`NaN` or an exact value.  (Finite double values occurring in this program —
small integers and their quotients — are represented exactly by rationals.) -/
inductive JSNum where
  | nan : JSNum
  | num : ℚ → JSNum
deriving DecidableEq

/-- Parse an unsigned decimal literal (integer part, optional fraction,
optional exponent), the whole input must be consumed.  Returns `none` where
JS string-to-number coercion yields `NaN`. -/
def parseDecAux (l : JStr) : Option ℚ :=
  let ip := l.takeWhile isDigitU
  let r1 := l.drop ip.length
  let fr : JStr × JStr :=
    match r1 with
    | 46 :: r => (r.takeWhile isDigitU, r.dropWhile isDigitU)
    | _ => ([], r1)
  let fp := fr.1
  let r2 := fr.2
  if ip = [] ∧ fp = [] then none
  else
    let mant : ℚ := (digitsToNat ip : ℚ) + (digitsToNat fp : ℚ) / ((10 : ℚ) ^ fp.length)
    match r2 with
    | [] => some mant
    | e :: r3 =>
      if e = 101 ∨ e = 69 then
        let se : Int × JStr :=
          match r3 with
          | 43 :: r => (1, r)
          | 45 :: r => (-1, r)
          | r => (1, r)
        let ed := se.2.takeWhile isDigitU
        if ed = [] ∨ se.2.drop ed.length ≠ [] then none
        else some (mant * (10 : ℚ) ^ (se.1 * (digitsToNat ed : Int)))
      else none

/-- Model of ECMAScript `ToNumber` on a string (the unary `+x` coercion used
in `parseRow`): whitespace is trimmed, the empty string coerces to `0`, a
signed decimal literal to its value, anything else to `NaN`.  (The rarely
used hex / `Infinity` literal forms never occur in the survey data and are
not modelled; the double `-0` is identified with `0`.) -/
def jsToNumber (s : JStr) : JSNum :=
  match jsTrim s with
  | [] => .num 0
  | 43 :: r =>
    match parseDecAux r with
    | some q => .num q
    | none => .nan
  | 45 :: r =>
    match parseDecAux r with
    | some q => .num (-q)
    | none => .nan
  | r =>
    match parseDecAux r with
    | some q => .num q
    | none => .nan

/-- JavaScript `<` on numbers: any comparison against `NaN` is false. -/
def JSNum.ltn : JSNum → JSNum → Bool
  | .num a, .num b => decide (a < b)
  | _, _ => false

/-- JavaScript `==` on two numbers: `NaN` is equal to nothing. -/
def JSNum.eqn : JSNum → JSNum → Bool
  | .num a, .num b => decide (a = b)
  | _, _ => false

/-- Date value produced by `timeFormat.parse` on success.  The hour is the
24-hour value after the AM/PM adjustment.  (Calendar normalization of
out-of-range components, performed by the JS `Date` constructor, is not
modelled; the program only ever builds dates and compares the parse result
against `null`.) -/
structure JDate where
  year : Nat
  month : Nat
  day : Nat
  hour : Nat
  minute : Nat
  second : Nat
deriving DecidableEq

/-- Numeric directive of the d3 v3 time parser: consumes at least one and at
most `w` leading decimal digits. -/
def takeNum (w : Nat) (l : JStr) : Option (Nat × JStr) :=
  let ds := (l.takeWhile isDigitU).take w
  if ds = [] then none else some (digitsToNat ds, l.drop ds.length)

/-- Literal character of the format string: must match exactly. -/
def expectU (u : Nat) (l : JStr) : Option JStr :=
  match l with
  | c :: r => if c = u then some r else none
  | [] => none

/-- The `%p` directive: AM or PM, case-insensitively, reported as a "PM?"
flag together with the rest of the input. -/
def parseAmPm (l : JStr) : Option (Bool × JStr) :=
  match l with
  | a :: m :: r =>
    if lowerChar a = 97 ∧ lowerChar m = 109 then some (false, r)
    else if lowerChar a = 112 ∧ lowerChar m = 109 then some (true, r)
    else none
  | _ => none

/-- The `%Y/%m/%d ` part of the format: year, month, day. -/
def parseYMD (s : JStr) : Option (Nat × Nat × Nat × JStr) :=
  (takeNum 4 s).bind fun py =>
  (expectU 47 py.2).bind fun l1 =>
  (takeNum 2 l1).bind fun pmo =>
  (expectU 47 pmo.2).bind fun l2 =>
  (takeNum 2 l2).bind fun pd =>
  (expectU 32 pd.2).bind fun l3 =>
  some (py.1, pmo.1, pd.1, l3)

/-- The `%I:%M:%S ` part of the format: 12-hour value, minute, second. -/
def parseHMS (s : JStr) : Option (Nat × Nat × Nat × JStr) :=
  (takeNum 2 s).bind fun ph =>
  (expectU 58 ph.2).bind fun l4 =>
  (takeNum 2 l4).bind fun pmi =>
  (expectU 58 pmi.2).bind fun l5 =>
  (takeNum 2 l5).bind fun ps =>
  (expectU 32 ps.2).bind fun l6 =>
  some (ph.1, pmi.1, ps.1, l6)

/-- The trailing literal ` AST` of the format, after which the input must be
exhausted. -/
def parseZoneEnd (s : JStr) : Bool :=
  s == [32, 65, 83, 84]

/-- Model of `d3.time.format("%Y/%m/%d %I:%M:%S %p AST").parse`: the fixed
format of the survey timestamps.  d3 v3 returns `null` (here `none`) unless
the whole string matches; `%p` matches AM/PM case-insensitively and shifts
the 12-hour value. -/
def parseTimestamp (s : JStr) : Option JDate :=
  (parseYMD s).bind fun ymd =>
  (parseHMS ymd.2.2.2).bind fun hms =>
  (parseAmPm hms.2.2.2).bind fun pap =>
  if parseZoneEnd pap.2 then
    some ⟨ymd.1, ymd.2.1, ymd.2.2.1,
          hms.1 % 12 + (if pap.1 then 12 else 0), hms.2.1, hms.2.2.1⟩
  else none

/-- Dynamic value stored in one field of a (possibly normalized) row. -/
inductive JSValue where
  | str : JStr → JSValue
  | numv : JSNum → JSValue
  | list : List JStr → JSValue
  | date : Option JDate → JSValue
deriving DecidableEq

/-- JS array-to-string join with a comma separator. -/
def joinComma (xs : List JStr) : JStr := List.intercalate [44] xs

/-- Numeric coercion of a field value (the `+x` and `0 < x` coercions).  A
string goes through `ToNumber`; an array joins with commas first; a `Date`
coerces to its epoch milliseconds in JS, but no date ever reaches a numeric
context in this program, so it is sent to `NaN`. -/
def toNum : JSValue → JSNum
  | .numv n => n
  | .str s => jsToNumber s
  | .list xs => jsToNumber (joinComma xs)
  | .date _ => .nan

/-- Row model: a CSV row object, mapping the full question text (column name)
to the value stored under it. -/
abbrev Row := String → JSValue

namespace fields

def beliefs : String := "How would you categorize your beliefs?"
def churchatt : String := "How often do you voluntarily attend religious services?"
def superexst : String := "Supernatural forces exist which cannot be directly addressed by science"
def superpers : String := "I have personally had a supernatural spiritual experience"
def godrelate : String := "We can relate to God personally, as opposed to an impersonal force"
def godspeaks : String := "God communicates to people in ways we can clearly understand"
def bibletrue : String := "Holy scriptures are a reliable source of divine truth"
def bibleusfl : String := "Holy scriptures are a reliable source of practical guidance for everyday life"
def divpunish : String := "Unrighteousness or wrongdoing will be punished in the afterlife"
def divreward : String := "Righteousness is rewarded in the afterlife"
def universal : String := "All people will eventually be reconciled with or joined to God"
def humangood : String := "Human beings are basically or inherently good"
def suffersin : String := "Human suffering in this life is caused by sin or unrighteousness"
def humancrea : String := "Human beings were specially created in their present form, apart from natural processes"
def naturcrea : String := "Naturalistic theories are insufficient to account for the origin and complexity of life"
def favlang : String := "What is your favorite programming language?"
def worklangs : String := "What is your primary programming language used at work (if any)?"
def progyears : String := "How many years have you been programming?"
def workyears : String := "How many years have you been programming professionally?"
def maxeducat : String := "How would you describe your education?"
def feedback : String := "Feedback"

end fields

/-- Fields that allowed multiple responses. -/
def multiValuedFields : List String := [fields.beliefs, fields.worklangs]

/-- Statement-section fields (Likert scale 0–5, 0 = no response). -/
def statements : List String :=
  [fields.superexst, fields.superpers, fields.godrelate, fields.godspeaks,
   fields.bibletrue, fields.bibleusfl, fields.divpunish, fields.divreward,
   fields.universal, fields.humangood, fields.suffersin, fields.humancrea,
   fields.naturcrea]

def otherNums : List String := [fields.progyears, fields.workyears]

/-- Numeric fields: `statements.concat(otherNums)` in the source (JS array
concatenation is list append). -/
def numericFields : List String := statements ++ otherNums

/-- Religions represented in the respondents' beliefs (`d3.set`; membership
is exact, case-sensitive string equality). -/
def religions : List JStr :=
  [strU "Christian", strU "Buddhist", strU "Jewish", strU "Muslim",
   strU "Pagan", strU "Hindu"]

/-- Labels indicating a particular leaning (`d3.set`). -/
def qualitativeModifiers : List JStr :=
  [strU "Liberal", strU "Moderate", strU "Conservative"]

/-- Predicate `predicates.isReligious`: some entry of the (already split)
beliefs list is in the religion set.  A non-list value never occurs there in
a normalized row (the JS would throw on it). -/
def isReligious (d : Row) : Bool :=
  match d fields.beliefs with
  | .list xs => xs.any (fun x => religions.contains x)
  | _ => false

/-- Predicate factory `predicates.makeHasOpinion`: the JS comparison
`0 < d[belief]` (numeric, hence false on `NaN`). -/
def makeHasOpinion (belief : String) : Row → Bool :=
  fun d => JSNum.ltn (.num 0) (toNum (d belief))

/-- Function `update(obj, field, f)`: `obj[field] = f(obj[field])`, embedded
as a pointwise functional update of the row map. -/
def update (obj : Row) (field : String) (f : JSValue → JSValue) : Row :=
  fun k => if k = field then f (obj field) else obj k

/-- Function `parseList`: split a string on every `;` or `,` (the regex class
`[;,]`); splitting the empty string yields one empty item, and no trimming or
deduplication happens. -/
def parseList (l : JStr) : List JStr :=
  match l with
  | [] => [[]]
  | c :: rest =>
    if c = 59 ∨ c = 44 then [] :: parseList rest
    else
      match parseList rest with
      | [] => [[c]]
      | p :: ps => (c :: p) :: ps

/-- Substring containment test: does `pat` occur contiguously in `s`?  This
is what an unanchored regex match of a literal pattern amounts to. -/
def containsSub (pat s : JStr) : Bool := s.tails.any (fun t => List.isPrefixOf pat t)

/-- Regex `/c\\++/` matches iff the string contains a `c` immediately followed
by a `+` (the trailing `+` makes one-or-more plus signs, so one suffices). -/
def matchCpp (s : JStr) : Bool := containsSub (strU "c+") s

/-- Regex `/objective.*c/` matches iff some occurrence of `objective` is
followed, with no line terminator in between (`.`), by a `c`. -/
def matchObjC (s : JStr) : Bool :=
  s.tails.any (fun t =>
    List.isPrefixOf (strU "objective") t &&
    ((t.drop 9).takeWhile (fun c => !(c == 10 || c == 13 || c == 8232 || c == 8233))).contains 99)

/-- Regex `/go(|lang)/` matches iff the string contains `go` (the empty
alternative makes the `lang` part optional). -/
def matchGo (s : JStr) : Bool := containsSub (strU "go") s

/-- Regex `/pyth.*/` matches iff the string contains `pyth` (`.*` may be
empty). -/
def matchPython (s : JStr) : Bool := containsSub (strU "pyth") s

/-- Regex `/(c#|\.net)/` matches iff the string contains `c#` or `.net`. -/
def matchCSharp (s : JStr) : Bool :=
  containsSub (strU "c#") s || containsSub (strU ".net") s

/-- Ordered alias-pattern table `langPatterns`.  A JS `for (var lang in ...)`
over an object literal with these (non-numeric) keys visits them in
declaration order, so the table is a list of (canonical tag, matcher) pairs
iterated front to back. -/
def langPatterns : List (JStr × (JStr → Bool)) :=
  [(strU "c++", matchCpp), (strU "objective-c", matchObjC),
   (strU "go", matchGo), (strU "python", matchPython),
   (strU "c#", matchCSharp)]

/-- Trim-and-lowercase prefix of `parseLang` (`x.trim().toLowerCase()`). -/
def normLang (x : JStr) : JStr := (jsTrim x).map lowerChar

/-- Function `parseLang`: trim and lowercase, then return the canonical tag
of the first matching alias pattern, or the trimmed lowercased input itself
when no pattern matches. -/
def parseLang (x : JStr) : JStr :=
  let y := normLang x
  match langPatterns.find? (fun p => p.2 y) with
  | some p => p.1
  | none => y

/-- Per-field transformer for the multi-valued fields: `parseList` applied to
the string stored there (raw CSV fields are always strings; on any other
value the JS would throw, so the other cases are left untouched). -/
def parseListV : JSValue → JSValue
  | .str s => .list (parseList s)
  | v => v

/-- Per-field transformer for numeric fields: the anonymous
`function (x) { return +x; }`. -/
def plusV (v : JSValue) : JSValue := .numv (toNum v)

/-- Per-field transformer for the timestamp: `timeFormat.parse(x)` (on the
raw string; other values never occur there). -/
def parseDateV : JSValue → JSValue
  | .str s => .date (parseTimestamp s)
  | v => v

/-- Per-field transformer for the favorite language. -/
def parseLangV : JSValue → JSValue
  | .str s => .str (parseLang s)
  | v => v

/-- Function `parseRow`: normalizes a row in the source's order — split each
multi-valued field, coerce each numeric field, parse the timestamp, normalize
the favorite language — and returns the row. -/
def parseRow (d : Row) : Row :=
  let d1 := multiValuedFields.foldl (fun r f => update r f parseListV) d
  let d2 := numericFields.foldl (fun r f => update r f plusV) d1
  let d3 := update d2 "Timestamp" parseDateV
  update d3 fields.favlang parseLangV

/-- View of a raw CSV row (all fields strings) as a `Row`. -/
def strToRow (d : String → JStr) : Row := fun k => .str (d k)

/-- Increment slot `i` of a count array (`m[lang][bin]++`). -/
def incAt (l : List Nat) (i : Nat) : List Nat := l.set i (l.getD i 0 + 1)

/-- Bin choice of `renderAgreementTable`:
`beliefValue == 3 ? 1 : (beliefValue < 3 ? 0 : 2)`, i.e. neutral / disagree /
agree (a `NaN` value, unequal and incomparable, would land in bin 2, but the
opinion filter has already removed such rows). -/
def binOf (n : JSNum) : Nat :=
  if JSNum.eqn n (.num 3) then 1 else if JSNum.ltn n (.num 3) then 0 else 2

/-- String used when a field value keys a JS object (`m[lang]`): a string is
used as is; an array would join with commas; the numeric and date cases never
occur at the favorite-language field of a normalized row. -/
def keyOf : JSValue → JStr
  | .str s => s
  | .list xs => joinComma xs
  | .numv _ => []
  | .date _ => []

/-- One reduction step of the `stats` accumulator of `renderAgreementTable`:
`m[lang] = m[lang] || [0, 0, 0]; m[lang][bin]++`.  The accumulator is an
insertion-ordered association list, as a JS object with string keys is. -/
def bump (m : List (JStr × List Nat)) (lang : JStr) (bin : Nat) :
    List (JStr × List Nat) :=
  if m.any (fun e => e.1 == lang) then
    m.map (fun e => if e.1 = lang then (e.1, incAt e.2 bin) else e)
  else m ++ [(lang, incAt [0, 0, 0] bin)]

/-- The `stats` object of `renderAgreementTable`: rows with an opinion on the
`humangood` statement, reduced to per-language `[disagree, neutral, agree]`
counts. -/
def crossTabStats (rows : List Row) : List (JStr × List Nat) :=
  (rows.filter (makeHasOpinion fields.humangood)).foldl
    (fun m row => bump m (keyOf (row fields.favlang)) (binOf (toNum (row fields.humangood))))
    []

/-- Normalization of one retained entry: each count divided by the entry's
total (`d.value.map(function (x) { return x / sum; })`). -/
def normEntry (d : JStr × List Nat) : JStr × List ℚ :=
  (d.1, d.2.map (fun x : Nat => (x : ℚ) / (d.2.sum : ℚ)))

/-- The `data` array of `renderAgreementTable` right before rendering:
entries (in insertion order), unpopular languages (`total ≤ 3`) dropped,
counts normalized to fractions. -/
def crossTabData (rows : List Row) : List (JStr × List ℚ) :=
  ((crossTabStats rows).filter (fun d => 3 < d.2.sum)).map normEntry

/-- Ordering used by the final `langDiv.sort(d3.descending(a.value[2],
b.value[2]))`: descending by the "agree" fraction. -/
def agreeGe (a b : JStr × List ℚ) : Prop :=
  b.2.getD 2 0 ≤ a.2.getD 2 0

instance : DecidableRel agreeGe :=
  fun a b => inferInstanceAs (Decidable (b.2.getD 2 0 ≤ a.2.getD 2 0))

instance : IsTotal (JStr × List ℚ) agreeGe :=
  ⟨fun a b => le_total (b.2.getD 2 0) (a.2.getD 2 0)⟩

instance : IsTrans (JStr × List ℚ) agreeGe :=
  ⟨fun _ _ _ h1 h2 => le_trans h2 h1⟩

/-- The sequence of language bars `renderAgreementTable` leaves in the
document: the normalized data, sorted descending by agree fraction.  (The
comparator determines the order only up to ties; a comparator-correct sort is
modelled by insertion sort.) -/
def renderAgreementTable (rows : List Row) : List (JStr × List ℚ) :=
  List.insertionSort agreeGe (crossTabData rows)

/-- Visual artifact appended to the `#viz-area` container.  The chart
geometry itself (scales, areas, spans) is the opaque rendering collaborator
of the spec; each artifact records which render function ran and the data it
was given. -/
inductive Artifact where
  | streamChart : List Row → Artifact
  | agreementTable : List (JStr × List ℚ) → Artifact

/-- Artifact appended by `renderResponseStream` (the SVG with the stacked
areas). -/
def renderResponseStream (rows : List Row) : Artifact := .streamChart rows

/-- The `d3.csv` completion callback: on error the rows are absent and
nothing is rendered; on success (`rows` non-null, even if empty, is truthy)
the response stream is rendered.  `renderAgreementTable` is defined in the
source but not called from here. -/
def loadCallback (rows : Option (List Row)) : List Artifact :=
  match rows with
  | some rs => [renderResponseStream rs]
  | none => []

/-- Shallow heap of row objects, for stating the in-place behaviour of
`parseRow`: references are indices, the heap maps each reference to the
record it holds. -/
abbrev RowHeap := Nat → Row

/-- In-place view of `parseRow`: called on the record at reference `r`, it
overwrites that record's fields with their normalized values and returns the
same reference (`return d`), leaving every other record alone. -/
def parseRowInPlace (h : RowHeap) (r : Nat) : RowHeap × Nat :=
  (Function.update h r (parseRow (h r)), r)

/-- Collection of every field name `parseRow` writes: the multi-valued
fields, the numeric fields, the timestamp and the favorite language. -/
def touchedFields : List String :=
  multiValuedFields ++ numericFields ++ ["Timestamp", fields.favlang]

/-- Raw row of the worked four-row example: only the beliefs, `humangood`
and favorite-language columns are populated. -/
def sampleRaw (beliefs humangood favlang : String) : String → JStr :=
  fun k =>
    if k = fields.beliefs then strU beliefs
    else if k = fields.humangood then strU humangood
    else if k = fields.favlang then strU favlang
    else strU ""

/-- The four normalized rows of the spec's end-to-end example. -/
def sampleRows : List Row :=
  [parseRow (strToRow (sampleRaw "Christian;Liberal" "4" "Go")),
   parseRow (strToRow (sampleRaw "Atheist" "2" "Go")),
   parseRow (strToRow (sampleRaw "Christian" "3" "Go")),
   parseRow (strToRow (sampleRaw "Christian" "5" "Go"))]

/-! Helper lemmas -/

/-- Value of a normalized row at any statement field: the raw string coerced
through `ToNumber`. -/
theorem parseRow_statement_eval (d : String → JStr) (field : String)
    (hf : field ∈ statements) :
    parseRow (strToRow d) field = .numv (jsToNumber (d field)) := by
  fin_cases hf <;> rfl

/-- Sum of a list of naturals divided pointwise by a rational. -/
theorem list_sum_map_div (l : List Nat) (s : ℚ) :
    (l.map (fun x : Nat => (x : ℚ) / s)).sum = (l.sum : ℚ) / s := by
  induction l with
  | nil => simp
  | cons a t ih =>
    rw [List.map_cons, List.sum_cons, ih, List.sum_cons, Nat.cast_add, add_div]

/-! Claim theorems -/

/-- C1 (counterexample): on the successful load of the worked four-row
example exactly one artifact is appended, and the agreement-table artifact is
not among the output — refuting the claim that both visualizations are
produced on every successful load. -/
theorem c1_counterexample :
    (loadCallback (some sampleRows)).length = 1 ∧
    Artifact.agreementTable (renderAgreementTable sampleRows) ∉
      loadCallback (some sampleRows) := by
  refine ⟨rfl, ?_⟩
  intro hmem
  simp [loadCallback, renderResponseStream] at hmem

/-- C1 (amended): for every successful data load the run renders exactly one
visual artifact, the time-stacked area chart of `renderResponseStream`;
`renderAgreementTable` is defined but never invoked by the load callback, so
no agreement-table artifact is appended. -/
theorem c1_only_stream_rendered (rows : List Row) :
    loadCallback (some rows) = [Artifact.streamChart rows] ∧
    Artifact.agreementTable (renderAgreementTable rows) ∉ loadCallback (some rows) := by
  refine ⟨rfl, ?_⟩
  intro hmem
  simp [loadCallback, renderResponseStream] at hmem

/-- C2: on the four-row example, the cross-tabulation of the `humangood`
statement against favorite language yields counts `[1, 1, 2]` for the key
`go`, which is retained since its total `4` exceeds `3` and normalizes to
the fractions `[1/4, 1/4, 1/2]`. -/
theorem c2_crossTab_example :
    crossTabStats sampleRows = [(strU "go", [1, 1, 2])] ∧
    3 < List.sum [1, 1, 2] ∧
    crossTabData sampleRows = [(strU "go", [(1 : ℚ)/4, 1/4, 1/2])] := by
  refine ⟨by with_unfolding_all decide, by decide, by with_unfolding_all decide⟩

/-- C3 (counterexample): with the raw value `"-1"` at the `humangood` field,
the normalized predicate returns false although the raw string is neither
`"0"` nor non-numeric text — refuting the claimed "exactly when". -/
theorem c3_counterexample :
    ¬ ((makeHasOpinion fields.humangood
          (parseRow (strToRow (sampleRaw "X" "-1" "Go"))) = false) ↔
       ((sampleRaw "X" "-1" "Go") fields.humangood = strU "0" ∨
        jsToNumber ((sampleRaw "X" "-1" "Go") fields.humangood) = .nan)) := by
  with_unfolding_all decide

/-- C3 (amended): for every statement field and every raw record, the
predicate `hasOpinion(field)` applied after normalization returns true
exactly when the raw string coerces to a number strictly greater than 0; it
returns false when the raw value is `"0"`, non-numeric text, or any other
string whose coerced value is not positive. -/
theorem c3_hasOpinion_iff_positive (d : String → JStr) (field : String)
    (hf : field ∈ statements) :
    makeHasOpinion field (parseRow (strToRow d)) = true ↔
    ∃ q : ℚ, jsToNumber (d field) = .num q ∧ 0 < q := by
  have h := parseRow_statement_eval d field hf
  simp only [makeHasOpinion, h, toNum]
  cases hn : jsToNumber (d field) with
  | nan => simp [JSNum.ltn]
  | num q => simp [JSNum.ltn]

/-- C3 (witness): the amended statement instantiated at the example's first
row and the `humangood` field. -/
theorem c3_witness :
    makeHasOpinion fields.humangood
      (parseRow (strToRow (sampleRaw "Christian;Liberal" "4" "Go"))) = true ↔
    ∃ q : ℚ,
      jsToNumber ((sampleRaw "Christian;Liberal" "4" "Go") fields.humangood) = .num q ∧
      0 < q :=
  c3_hasOpinion_iff_positive (sampleRaw "Christian;Liberal" "4" "Go")
    fields.humangood (by decide)

/-- C4: a normalized record satisfies `isReligious` exactly when its beliefs
list contains, by exact case-sensitive string equality, at least one of the
six religions. -/
theorem c4_isReligious_iff (d : String → JStr) :
    isReligious (parseRow (strToRow d)) = true ↔
    ∃ x ∈ parseList (d fields.beliefs), x ∈ religions := by
  have h : (parseRow (strToRow d)) fields.beliefs = .list (parseList (d fields.beliefs)) := rfl
  simp only [isReligious, h]
  simp [List.any_eq_true]

/-- C5: the language normalizer sends "Golang" to "go", "Python 3" to
"python", "  C++11" to "c++", and passes "Ruby" through as "ruby" since no
alias pattern matches it. -/
theorem c5_parseLang_examples :
    parseLang (strU "Golang") = strU "go" ∧
    parseLang (strU "Python 3") = strU "python" ∧
    parseLang (strU "  C++11") = strU "c++" ∧
    parseLang (strU "Ruby") = strU "ruby" := by
  refine ⟨by decide, by decide, by decide, by decide⟩

/-- C6: every entry of the rendered agreement table comes from a language
whose raw counts are in the cross-tab with a total strictly greater than 3,
its fractions are those counts divided by the total, and they sum to exactly
1. -/
theorem c6_retained_normalized (rows : List Row) (e : JStr × List ℚ)
    (he : e ∈ renderAgreementTable rows) :
    (∃ c, (e.1, c) ∈ crossTabStats rows ∧ 3 < c.sum ∧
        e.2 = c.map (fun x : Nat => (x : ℚ) / (c.sum : ℚ))) ∧
    e.2.sum = 1 := by
  rw [renderAgreementTable, List.mem_insertionSort, crossTabData] at he
  obtain ⟨c, hc, rfl⟩ := List.mem_map.1 he
  rw [List.mem_filter] at hc
  obtain ⟨hcs, hlt⟩ := hc
  have hlt3 : 3 < c.2.sum := by simpa using hlt
  have hpos : (0 : ℚ) < (c.2.sum : ℚ) := by
    exact_mod_cast Nat.lt_of_le_of_lt (Nat.zero_le 3) hlt3
  constructor
  · exact ⟨c.2, by simpa [normEntry] using hcs, hlt3, rfl⟩
  · show (c.2.map (fun x : Nat => (x : ℚ) / (c.2.sum : ℚ))).sum = 1
    rw [list_sum_map_div]
    exact div_self (ne_of_gt hpos)

/-- C6 (witness): the statement instantiated at the four-row example and its
single retained entry. -/
theorem c6_witness :
    (∃ c, (((strU "go", [(1 : ℚ)/4, 1/4, 1/2]) : JStr × List ℚ).1, c) ∈ crossTabStats sampleRows ∧
        3 < c.sum ∧
        ((strU "go", [(1 : ℚ)/4, 1/4, 1/2]) : JStr × List ℚ).2 =
          c.map (fun x : Nat => (x : ℚ) / (c.sum : ℚ))) ∧
    ((strU "go", [(1 : ℚ)/4, 1/4, 1/2]) : JStr × List ℚ).2.sum = 1 :=
  c6_retained_normalized sampleRows (strU "go", [(1 : ℚ)/4, 1/4, 1/2])
    (by with_unfolding_all decide)

/-- C7: the rendered agreement table is sorted descending by the agree
fraction — every adjacent pair satisfies `agree[i] >= agree[i+1]`. -/
theorem c7_sorted_descending (rows : List Row) :
    List.Chain' agreeGe (renderAgreementTable rows) :=
  List.Pairwise.chain' (List.sorted_insertionSort agreeGe (crossTabData rows))

/-- C8: normalization is total and degrades malformed input silently: an
empty numeric field becomes `0`, non-numeric text becomes `NaN`, an
unparseable timestamp becomes the null date, and an unmatched
favorite-language string passes through trimmed and lowercased. -/
theorem c8_malformed_degrades_silently (d : String → JStr)
    (h1 : d fields.progyears = strU "")
    (h2 : jsToNumber (d fields.humangood) = .nan)
    (h3 : parseTimestamp (d "Timestamp") = none)
    (h4 : langPatterns.find? (fun p => p.2 (normLang (d fields.favlang))) = none) :
    parseRow (strToRow d) fields.progyears = .numv (.num 0) ∧
    parseRow (strToRow d) fields.humangood = .numv .nan ∧
    parseRow (strToRow d) "Timestamp" = .date none ∧
    parseRow (strToRow d) fields.favlang = .str (normLang (d fields.favlang)) := by
  refine ⟨?_, ?_, ?_, ?_⟩
  · show JSValue.numv (jsToNumber (d fields.progyears)) = .numv (.num 0)
    rw [h1]
    rfl
  · show JSValue.numv (jsToNumber (d fields.humangood)) = .numv .nan
    rw [h2]
  · show JSValue.date (parseTimestamp (d "Timestamp")) = .date none
    rw [h3]
  · show JSValue.str (parseLang (d fields.favlang)) = .str (normLang (d fields.favlang))
    simp only [parseLang, h4]

/-- Raw record in which every interesting field is malformed: non-numeric
statement text, a non-timestamp, a language matched by no alias pattern, and
blank numeric fields. -/
def badRaw : String → JStr :=
  fun k =>
    if k = fields.favlang then strU " Ruby 2 "
    else if k = fields.humangood then strU "abc"
    else if k = "Timestamp" then strU "garbage"
    else strU ""

/-- C8 (witness): the silent-degradation statement instantiated at the fully
malformed record. -/
theorem c8_witness :
    parseRow (strToRow badRaw) fields.progyears = .numv (.num 0) ∧
    parseRow (strToRow badRaw) fields.humangood = .numv .nan ∧
    parseRow (strToRow badRaw) "Timestamp" = .date none ∧
    parseRow (strToRow badRaw) fields.favlang = .str (normLang (badRaw fields.favlang)) :=
  c8_malformed_degrades_silently badRaw (by decide) (by with_unfolding_all decide)
    (by decide) (by rfl)

/-- C9: `parseRow` updates the record it is handed in place — it returns the
same reference, rewrites exactly that record in the heap, leaves every other
record alone, and within the record touches only the multi-valued, numeric,
timestamp and favorite-language fields (any other field, such as the
feedback, keeps its value). -/
theorem c9_parseRow_in_place (h : RowHeap) (r r2 : Nat) (hr2 : r2 ≠ r)
    (row : Row) (k : String) (hk : k ∉ touchedFields) :
    (parseRowInPlace h r).2 = r ∧
    (parseRowInPlace h r).1 r = parseRow (h r) ∧
    (parseRowInPlace h r).1 r2 = h r2 ∧
    parseRow row k = row k := by
  have hks : ∀ f ∈ touchedFields, k ≠ f := fun f hf he => hk (he ▸ hf)
  refine ⟨rfl, ?_, ?_, ?_⟩
  · simp [parseRowInPlace]
  · simp [parseRowInPlace, Function.update_noteq hr2]
  · simp only [parseRow, multiValuedFields, numericFields, statements, otherNums,
      List.cons_append, List.nil_append, List.foldl_cons, List.foldl_nil, update,
      hks fields.beliefs (by decide), hks fields.worklangs (by decide),
      hks fields.superexst (by decide), hks fields.superpers (by decide),
      hks fields.godrelate (by decide), hks fields.godspeaks (by decide),
      hks fields.bibletrue (by decide), hks fields.bibleusfl (by decide),
      hks fields.divpunish (by decide), hks fields.divreward (by decide),
      hks fields.universal (by decide), hks fields.humangood (by decide),
      hks fields.suffersin (by decide), hks fields.humancrea (by decide),
      hks fields.naturcrea (by decide), hks fields.progyears (by decide),
      hks fields.workyears (by decide), hks "Timestamp" (by decide),
      hks fields.favlang (by decide), if_false]

/-- Row and heap used to instantiate the in-place statement. -/
def constRow : Row := fun _ => .str (strU "x")

/-- Heap holding the constant row everywhere. -/
def constHeap : RowHeap := fun _ => constRow

/-- C9 (witness): the in-place statement instantiated at a concrete heap,
reference 0, bystander reference 1, and the feedback field. -/
theorem c9_witness :
    (parseRowInPlace constHeap 0).2 = 0 ∧
    (parseRowInPlace constHeap 0).1 0 = parseRow (constHeap 0) ∧
    (parseRowInPlace constHeap 0).1 1 = constHeap 1 ∧
    parseRow constRow fields.feedback = constRow fields.feedback :=
  c9_parseRow_in_place constHeap 0 1 (by decide) constRow fields.feedback (by decide)

/-! Lemmas toward the idempotence of the language normalizer -/

/-- ASCII lowercasing is idempotent on a code unit. -/
theorem lowerChar_idem (n : Nat) : lowerChar (lowerChar n) = lowerChar n := by
  simp only [lowerChar]
  split_ifs <;> omega

/-- Lowercasing preserves whitespace-ness of a code unit. -/
theorem jsWs_lowerChar (n : Nat) : jsWs (lowerChar n) = jsWs n := by
  rw [Bool.eq_iff_iff]
  simp only [jsWs, Bool.or_eq_true, beq_iff_eq, lowerChar]
  split_ifs with h <;> omega

/-- Dropping a prefix twice with the same predicate is the same as dropping
it once. -/
theorem dropWhile_idem {α : Type} (p : α → Bool) (l : List α) :
    (l.dropWhile p).dropWhile p = l.dropWhile p := by
  induction l with
  | nil => rfl
  | cons a t ih =>
    by_cases hp : p a
    · simp [List.dropWhile_cons, hp, ih]
    · simp [List.dropWhile_cons, hp]

/-- The trimmed string has no leading whitespace left. -/
theorem dropWhile_jsTrim (l : JStr) : (jsTrim l).dropWhile jsWs = jsTrim l := by
  rcases hz : jsTrim l with _ | ⟨a, t⟩
  · rfl
  · have hX : ((l.dropWhile jsWs).reverse.dropWhile jsWs) <:+ (l.dropWhile jsWs).reverse :=
      List.dropWhile_suffix jsWs
    have hpre : jsTrim l <+: l.dropWhile jsWs :=
      List.reverse_suffix.mp (by simpa [jsTrim] using hX)
    rw [hz] at hpre
    obtain ⟨s, hs⟩ := hpre
    have hh1 : (l.dropWhile jsWs).head? = some a := by rw [← hs]; rfl
    have hh2 : jsWs a = false := by
      have hmatch := List.head?_dropWhile_not jsWs l
      rw [hh1] at hmatch
      exact hmatch
    exact List.dropWhile_cons_of_neg (by simp [hh2])

/-- Trimming is idempotent. -/
theorem jsTrim_idem (l : JStr) : jsTrim (jsTrim l) = jsTrim l := by
  show (((jsTrim l).dropWhile jsWs).reverse.dropWhile jsWs).reverse = jsTrim l
  rw [dropWhile_jsTrim]
  have h2 : (jsTrim l).reverse = (l.dropWhile jsWs).reverse.dropWhile jsWs := by
    rw [jsTrim, List.reverse_reverse]
  rw [h2, dropWhile_idem, ← h2, List.reverse_reverse]

/-- Trimming commutes with lowercasing. -/
theorem jsTrim_map_lower (l : JStr) :
    jsTrim (l.map lowerChar) = (jsTrim l).map lowerChar := by
  have hws : (jsWs ∘ lowerChar) = jsWs := funext jsWs_lowerChar
  simp only [jsTrim, List.dropWhile_map, hws, ← List.map_reverse]

/-- The trim-and-lowercase normalization is idempotent. -/
theorem normLang_idem (x : JStr) : normLang (normLang x) = normLang x := by
  have hl : (lowerChar ∘ lowerChar) = lowerChar := funext lowerChar_idem
  simp only [normLang, jsTrim_map_lower, jsTrim_idem, List.map_map, hl]

/-- C10: `parseLang` is idempotent — every canonical tag re-normalizes to
itself and every pass-through result is already a fixed point. -/
theorem c10_parseLang_idem (x : JStr) : parseLang (parseLang x) = parseLang x := by
  rcases hfind : langPatterns.find? (fun p => p.2 (normLang x)) with _ | p
  · have hx : parseLang x = normLang x := by simp [parseLang, hfind]
    rw [hx]
    simp [parseLang, normLang_idem, hfind]
  · have hp := List.mem_of_find?_eq_some hfind
    have hx : parseLang x = p.1 := by simp [parseLang, hfind]
    rw [hx]
    simp only [langPatterns, List.mem_cons, List.not_mem_nil, or_false] at hp
    rcases hp with rfl | rfl | rfl | rfl | rfl <;> decide
